import Mathlib

/-
Verification development for the resilient chunked-transfer engine of
src/run_backup.py (dropbox-iphoto-backup).

The Python source is shallowly embedded as executable Lean definitions:

* `chunkLoop` / `chunk_upload` model `_chunk_upload` (lines 149-176): the
  session protocol is recorded as a trace of `UpEvent`s (session start,
  append at an offset, finish at an offset).  The local file is modelled by
  the number of bytes actually readable (`avail`) together with the declared
  `fileSize`; a read of `n` bytes at position `pos` returns
  `min n (avail - pos)` bytes, as a real regular-file read does.  The
  unbounded Python `while` loop is run on explicit fuel.
* `autoRetryAux` / `auto_retry` model `_auto_retry` (lines 130-147).  The
  wrapped callable is modelled as a map from the attempt index to the
  outcome of that invocation (success, transient network error, dropbox
  ApiError).  Line 139 of the source reads
  `print("...").format(...)` - the `.format` is applied to the return value
  of `print`, which is `None`, so reaching the retry ceiling raises an
  AttributeError and the `raise` on line 142 is dead code.  The model keeps
  that behaviour faithfully (`RetryOut.raisesAttr`).
* `get_server_file_size` models `_get_server_file_size` (lines 114-119):
  the metadata lookup result is either a size or a dropbox ApiError of some
  kind; every ApiError is mapped to size 0.
* `upload` models the thread worker `upload` (lines 195-245) as a trace of
  observable events plus a final outcome (normal return or an escaping
  exception).  The remote store is modelled by the oracle fields of
  `UploadEnv`: the pre-upload metadata lookup per path, the outcome of the
  transfer call itself, and the post-upload metadata lookup.
* `fix_file` models `_fix_file` (lines 248-266) of the relocation pass.
-/

namespace RunBackup

/-- MAX_UPLOAD_CHUNK_SIZE from line 34 of the source: 8 MiB. -/
def MAX_UPLOAD_CHUNK_SIZE : Nat := 8 * 1024 * 1024

/-- MAX_RETRY_COUNT_ON_NETWORK_ERROR from line 35 of the source. -/
def MAX_RETRY_COUNT_ON_NETWORK_ERROR : Nat := 10

/-- Remote calls issued by `_chunk_upload`, with the byte count carried by the
call and (for append and finish) the cursor offset passed to the call. -/
inductive UpEvent where
  | start (bytes : Nat)
  | append (offset bytes : Nat)
  | finish (offset bytes : Nat)
deriving DecidableEq

/-- Loop body of `_chunk_upload` (lines 161-175).  `pos` is the file position
`file_obj.tell()`, `off` is `cursor.offset`.  A read returns
`min MAX_UPLOAD_CHUNK_SIZE (avail - pos)` bytes.  In the branch where the
remaining declared bytes are at most one chunk the session finish is issued
at the current cursor offset; otherwise an append is issued at the current
cursor offset and the cursor is then set to the new file position. -/
def chunkLoop (fileSize avail : Nat) : Nat → Nat → Nat → Option (List UpEvent)
  | fuel + 1, pos, off =>
    if pos < fileSize then
      if fileSize - pos ≤ MAX_UPLOAD_CHUNK_SIZE then
        (chunkLoop fileSize avail fuel
            (pos + min MAX_UPLOAD_CHUNK_SIZE (avail - pos)) off).map
          (fun t => UpEvent.finish off (min MAX_UPLOAD_CHUNK_SIZE (avail - pos)) :: t)
      else
        (chunkLoop fileSize avail fuel
            (pos + min MAX_UPLOAD_CHUNK_SIZE (avail - pos))
            (pos + min MAX_UPLOAD_CHUNK_SIZE (avail - pos))).map
          (fun t => UpEvent.append off (min MAX_UPLOAD_CHUNK_SIZE (avail - pos)) :: t)
    else some []
  | 0, pos, _ => if pos < fileSize then none else some []

/-- Whole of `_chunk_upload` (lines 149-176): the first chunk is read and the
session is started with it; the cursor offset is initialised to the file
position after that read; then the loop runs. -/
def chunk_upload (fileSize avail fuel : Nat) : Option (List UpEvent) :=
  (chunkLoop fileSize avail fuel (min MAX_UPLOAD_CHUNK_SIZE avail)
      (min MAX_UPLOAD_CHUNK_SIZE avail)).map
    (fun t => UpEvent.start (min MAX_UPLOAD_CHUNK_SIZE avail) :: t)

/-- Contiguity of a session-call trace: with `c` bytes already carried by the
session, each subsequent append or finish is issued at offset exactly `c` and
carries its byte count into the running total.  A second session start never
occurs. -/
def chainedFrom : Nat → List UpEvent → Prop
  | _, [] => True
  | _, UpEvent.start _ :: _ => False
  | c, UpEvent.append off b :: t => off = c ∧ chainedFrom (c + b) t
  | c, UpEvent.finish off b :: t => off = c ∧ chainedFrom (c + b) t

/-- Shape of the loop trace: zero or more appends followed by exactly one
finish, which is the last call of the session. -/
def appendsThenFinish : List UpEvent → Prop
  | [UpEvent.finish _ _] => True
  | UpEvent.append _ _ :: t => appendsThenFinish t
  | _ => False

/-- Outcome of one invocation of the callable wrapped by `_auto_retry`. -/
inductive CallRes where
  | ok (v : Nat)
  | netErr
  | apiErr
deriving DecidableEq

/-- Observable result of `_auto_retry`. -/
inductive RetryOut where
  | ok (v : Nat)
  | raisesNet
  | raisesApi
  | raisesAttr
deriving DecidableEq

/-- Retry loop of `_auto_retry` (lines 130-147).  `fuel` is
`MAX_RETRY_COUNT_ON_NETWORK_ERROR - retry_count`.  On a network-class error
with `retry_count` reaching the ceiling, line 139 evaluates
`print("...").format(...)`, i.e. `None.format`, raising an AttributeError
before the `raise` on line 142 can run; this is `RetryOut.raisesAttr`.
Any other exception class is not caught and propagates at once
(`RetryOut.raisesApi`). -/
def autoRetryAux (f : Nat → CallRes) : Nat → Nat → RetryOut
  | _, 0 => RetryOut.raisesAttr
  | attempt, fuel + 1 =>
    match f attempt with
    | CallRes.ok v => RetryOut.ok v
    | CallRes.apiErr => RetryOut.raisesApi
    | CallRes.netErr => autoRetryAux f (attempt + 1) fuel

/-- Entry point of `_auto_retry`: `retry_count` starts at 0. -/
def auto_retry (f : Nat → CallRes) : RetryOut :=
  autoRetryAux f 0 MAX_RETRY_COUNT_ON_NETWORK_ERROR

/-- Kinds of `dropbox.exceptions.ApiError` a metadata lookup can raise;
object-not-found is one ApiError among others. -/
inductive ApiErrKind where
  | notFound
  | permission
  | rateLimit
  | other
deriving DecidableEq

/-- Result of a `files_get_metadata` call: either metadata carrying a size, or
a raised `dropbox.exceptions.ApiError`. -/
inductive MetaResult where
  | ok (size : Nat)
  | err (e : ApiErrKind)
deriving DecidableEq

/-- Model of `_get_server_file_size` (lines 114-119): return the metadata
size, and 0 on any `dropbox.exceptions.ApiError`. -/
def get_server_file_size : MetaResult → Nat
  | MetaResult.ok n => n
  | MetaResult.err _ => 0

/-- Outcome of the transfer call inside `upload` (the `_chunk_upload` call or
the single-shot `files_upload` call, lines 221-227): a returned
`metadata.path_lower`, or the exception class that escapes the call. -/
inductive TransferOutcome where
  | ok (finalPath : String)
  | apiError
  | osError
  | otherError
deriving DecidableEq

/-- Environment of one `upload` task (lines 195-245): the tuple fields and
the behaviour of the remote store during this task.  `lookup` gives the
pre-upload `files_get_metadata` result per queried path, `transfer` the
outcome of the upload call itself, `verify` the post-upload
`files_get_metadata` result at the uploaded path. -/
structure UploadEnv where
  is_delete : Bool
  file_size : Nat
  dest_full_path : String
  meta_svr_path : Option String
  lookup : String → MetaResult
  transfer : TransferOutcome
  verify : MetaResult

/-- Observable events of one `upload` task, in program order. -/
inductive UEvent where
  | skipLog
  | uploadCall
  | apiErrorLog
  | verified (pass : Bool)
  | deleteLocal
deriving DecidableEq

/-- How the `upload` call terminates: normal return, or an escaping
exception (OSError re-raised on line 235, the size-mismatch Exception of
line 240, or any exception class caught by neither handler). -/
inductive UResult where
  | ret
  | raisesOS
  | raisesMismatch
  | raisesOther
deriving DecidableEq

/-- Dedup condition of lines 209-210:
`_get_server_file_size(dbx, dest_full_path) == file_size or
(meta_svr_path and _get_server_file_size(dbx, meta_svr_path) == file_size)`.
A `meta_svr_path` of `None` (metadata extraction failed) makes the second
disjunct false without a lookup. -/
def dedupSkip (env : UploadEnv) : Bool :=
  (get_server_file_size (env.lookup env.dest_full_path) == env.file_size) ||
    (match env.meta_svr_path with
     | some p => get_server_file_size (env.lookup p) == env.file_size
     | none => false)

/-- Model of the worker function `upload` (lines 195-245) as the event trace
and the way the call terminates.  On the skip branch control falls through to
the `if is_delete` of line 243.  On the non-skip branch: an ApiError from the
transfer is caught, logged and turned into `uploaded_full_path = None`, after
which line 237 returns before the delete; an OSError is logged and re-raised;
any other exception escapes uncaught.  On a successful transfer, a falsy
returned path returns early; otherwise the size is re-queried and a mismatch
raises the Exception of line 240, while a match falls through to the optional
delete. -/
def upload (env : UploadEnv) : List UEvent × UResult :=
  if dedupSkip env then
    if env.is_delete then ([UEvent.skipLog, UEvent.deleteLocal], UResult.ret)
    else ([UEvent.skipLog], UResult.ret)
  else
    match env.transfer with
    | TransferOutcome.apiError => ([UEvent.uploadCall, UEvent.apiErrorLog], UResult.ret)
    | TransferOutcome.osError => ([UEvent.uploadCall], UResult.raisesOS)
    | TransferOutcome.otherError => ([UEvent.uploadCall], UResult.raisesOther)
    | TransferOutcome.ok finalPath =>
      if finalPath = "" then ([UEvent.uploadCall], UResult.ret)
      else if get_server_file_size env.verify ≠ env.file_size then
        ([UEvent.uploadCall, UEvent.verified false], UResult.raisesMismatch)
      else if env.is_delete then
        ([UEvent.uploadCall, UEvent.verified true, UEvent.deleteLocal], UResult.ret)
      else ([UEvent.uploadCall, UEvent.verified true], UResult.ret)

/-- Checker that every local-delete event is strictly preceded by a passed
size verification; the accumulator records whether a passed verification has
been seen. -/
def deletesAfterVerify : List UEvent → Bool → Bool
  | [], _ => true
  | UEvent.deleteLocal :: t, seen => seen && deletesAfterVerify t seen
  | UEvent.verified true :: t, _ => deletesAfterVerify t true
  | _ :: t, seen => deletesAfterVerify t seen

/-- Capture timestamp (`media.time_taken`) components used by `_fix_file`. -/
structure Date where
  year : Nat
  month : Nat
  day : Nat
deriving DecidableEq

/-- `metadata.media_info`: either still pending (is_metadata() false) or
resolved metadata with an optional `time_taken`. -/
inductive MediaInfo where
  | pending
  | metadata (time_taken : Option Date)
deriving DecidableEq

/-- Fields of a listed remote entry used by `_fix_file`.  `isFileMetadata`
models `isinstance(metadata, dropbox.files.FileMetadata)`;
`media_info = none` models a falsy `metadata.media_info`. -/
structure FileMeta where
  isFileMetadata : Bool
  media_info : Option MediaInfo
  name : String
  path_lower : String

/-- Python `"{:02}".format(n)`: decimal digits padded to width two. -/
def pad2 (n : Nat) : String :=
  if n < 10 then "0" ++ toString n else toString n

/-- Destination format string of lines 252-256:
`/Photos/{year}/{month:02}/{day:02}/{name}`. -/
def canonicalDest (d : Date) (name : String) : String :=
  "/Photos/" ++ toString d.year ++ "/" ++ pad2 d.month ++ "/" ++ pad2 d.day ++
    "/" ++ name

/-- Observable events of one `_fix_file` call. -/
inductive FEvent where
  | moveCall (src dst : String)
  | collisionLog (src : String)
  | typeLog
deriving DecidableEq

/-- Model of `_fix_file` (lines 248-266).  When the entry is a
FileMetadata with resolved media info carrying a `time_taken`, a
`files_move` from `metadata.path_lower` to the canonical date path is issued
unconditionally; a raised ApiError (`moveOk = false`) is caught and logged.
A missing `time_taken` does nothing; every other entry shape only logs its
type. -/
def fix_file (m : FileMeta) (moveOk : Bool) : List FEvent :=
  if m.isFileMetadata then
    match m.media_info with
    | some (MediaInfo.metadata (some d)) =>
      if moveOk then [FEvent.moveCall m.path_lower (canonicalDest d m.name)]
      else [FEvent.moveCall m.path_lower (canonicalDest d m.name),
            FEvent.collisionLog m.path_lower]
    | some (MediaInfo.metadata none) => []
    | some MediaInfo.pending => [FEvent.typeLog]
    | none => [FEvent.typeLog]
  else [FEvent.typeLog]

lemma chunkLoop_done (fileSize avail fuel pos off : Nat) (h : ¬ pos < fileSize) :
    chunkLoop fileSize avail fuel pos off = some [] := by
  cases fuel <;> simp [chunkLoop, h]

lemma chunkLoop_props (n : Nat) :
    ∀ fuel pos, pos < n → n - pos ≤ fuel →
      ∃ t, chunkLoop n n fuel pos pos = some t
        ∧ chainedFrom pos t
        ∧ (∀ off b, UpEvent.append off b ∈ t → b = MAX_UPLOAD_CHUNK_SIZE)
        ∧ appendsThenFinish t
        ∧ (∀ off b, UpEvent.finish off b ∈ t →
            n - off ≤ MAX_UPLOAD_CHUNK_SIZE ∧ off + b = n) := by
  intro fuel
  induction fuel with
  | zero => intro pos h1 h2; omega
  | succ fuel ih =>
    intro pos h1 h2
    by_cases hfin : n - pos ≤ MAX_UPLOAD_CHUNK_SIZE
    · have hk : min MAX_UPLOAD_CHUNK_SIZE (n - pos) = n - pos :=
        Nat.min_eq_right hfin
      have hdone : chunkLoop n n fuel (pos + (n - pos)) pos = some [] :=
        chunkLoop_done n n fuel (pos + (n - pos)) pos (by omega)
      refine ⟨[UpEvent.finish pos (n - pos)], ?_, ?_, ?_, ?_, ?_⟩
      · simp [chunkLoop, h1, hfin, hk, hdone]
      · exact ⟨rfl, trivial⟩
      · intro off b hb; simp at hb
      · trivial
      · intro off b hb
        simp at hb
        exact ⟨hb.1 ▸ hfin, by omega⟩
    · have hck : 0 < MAX_UPLOAD_CHUNK_SIZE := by decide
      have hk : min MAX_UPLOAD_CHUNK_SIZE (n - pos) = MAX_UPLOAD_CHUNK_SIZE :=
        Nat.min_eq_left (by omega)
      have hlt : pos + MAX_UPLOAD_CHUNK_SIZE < n := by omega
      have hfuel : n - (pos + MAX_UPLOAD_CHUNK_SIZE) ≤ fuel := by omega
      obtain ⟨t, heq, hchain, happ, hshape, hfin2⟩ :=
        ih (pos + MAX_UPLOAD_CHUNK_SIZE) hlt hfuel
      refine ⟨UpEvent.append pos MAX_UPLOAD_CHUNK_SIZE :: t, ?_, ?_, ?_, ?_, ?_⟩
      · simp [chunkLoop, h1, hfin, hk, heq]
      · exact ⟨rfl, hchain⟩
      · intro off b hb
        rcases List.mem_cons.mp hb with hb | hb
        · cases hb; rfl
        · exact happ off b hb
      · exact hshape
      · intro off b hb
        rcases List.mem_cons.mp hb with hb | hb
        · cases hb
        · exact hfin2 off b hb

lemma chunkLoop_short_none (n avail : Nat) (h : avail < n) :
    ∀ fuel pos off, pos ≤ avail → chunkLoop n avail fuel pos off = none := by
  intro fuel
  induction fuel with
  | zero =>
    intro pos off hp
    have hlt : pos < n := by omega
    simp [chunkLoop, hlt]
  | succ fuel ih =>
    intro pos off hp
    have hlt : pos < n := by omega
    have hnext : pos + min MAX_UPLOAD_CHUNK_SIZE (avail - pos) ≤ avail := by
      have := Nat.min_le_right MAX_UPLOAD_CHUNK_SIZE (avail - pos)
      omega
    by_cases hb : n - pos ≤ MAX_UPLOAD_CHUNK_SIZE <;>
      simp [chunkLoop, hlt, hb, ih _ off hnext, ih _ (pos + min MAX_UPLOAD_CHUNK_SIZE (avail - pos)) hnext]

/-- C1: for every file strictly larger than the 8 MiB chunk size (readable
bytes matching the declared size), `_chunk_upload` issues the session start
with the first (full 8 MiB) chunk; the following trace is a run of appends
closed by exactly one final finish; every call is issued at an offset equal to
the bytes already carried by the session (`chainedFrom`), so each append
offset is the previous offset plus the bytes previously appended — and since
every append carries a full nonzero chunk, the offsets strictly increase; a
finish is issued only when the remaining bytes are at most the chunk size and
its bytes complete the file.  In particular a 20 MiB file yields exactly one
Start of 8 MiB, one Append of 8 MiB issued at offset 8 MiB (cursor 16 MiB
after it), and one Finish of 4 MiB at offset 16 MiB. -/
theorem chunk_upload_offsets_contiguous (n : Nat)
    (h : MAX_UPLOAD_CHUNK_SIZE < n) :
    (∃ t, chunk_upload n n n = some (UpEvent.start MAX_UPLOAD_CHUNK_SIZE :: t)
      ∧ chainedFrom MAX_UPLOAD_CHUNK_SIZE t
      ∧ (∀ off b, UpEvent.append off b ∈ t → b = MAX_UPLOAD_CHUNK_SIZE ∧ 0 < b)
      ∧ appendsThenFinish t
      ∧ (∀ off b, UpEvent.finish off b ∈ t →
          n - off ≤ MAX_UPLOAD_CHUNK_SIZE ∧ off + b = n))
    ∧ chunk_upload (20 * 1024 * 1024) (20 * 1024 * 1024) (20 * 1024 * 1024) =
        some [UpEvent.start (8 * 1024 * 1024),
              UpEvent.append (8 * 1024 * 1024) (8 * 1024 * 1024),
              UpEvent.finish (16 * 1024 * 1024) (4 * 1024 * 1024)] := by
  constructor
  · have hmin : min MAX_UPLOAD_CHUNK_SIZE n = MAX_UPLOAD_CHUNK_SIZE :=
      Nat.min_eq_left (Nat.le_of_lt h)
    obtain ⟨t, heq, hchain, happ, hshape, hfin⟩ :=
      chunkLoop_props n n MAX_UPLOAD_CHUNK_SIZE h (by omega)
    refine ⟨t, ?_, hchain, ?_, hshape, hfin⟩
    · simp [chunk_upload, hmin, heq]
    · intro off b hb
      have hb2 := happ off b hb
      exact ⟨hb2, hb2 ▸ (by decide)⟩
  · decide

/-- C1 witness: the protocol theorem instantiated at the 20 MiB scenario. -/
theorem chunk_upload_offsets_contiguous_witness :
    MAX_UPLOAD_CHUNK_SIZE < 20 * 1024 * 1024 ∧
    ((∃ t, chunk_upload (20 * 1024 * 1024) (20 * 1024 * 1024) (20 * 1024 * 1024) =
        some (UpEvent.start MAX_UPLOAD_CHUNK_SIZE :: t)
      ∧ chainedFrom MAX_UPLOAD_CHUNK_SIZE t
      ∧ (∀ off b, UpEvent.append off b ∈ t → b = MAX_UPLOAD_CHUNK_SIZE ∧ 0 < b)
      ∧ appendsThenFinish t
      ∧ (∀ off b, UpEvent.finish off b ∈ t →
          20 * 1024 * 1024 - off ≤ MAX_UPLOAD_CHUNK_SIZE ∧
            off + b = 20 * 1024 * 1024))
    ∧ chunk_upload (20 * 1024 * 1024) (20 * 1024 * 1024) (20 * 1024 * 1024) =
        some [UpEvent.start (8 * 1024 * 1024),
              UpEvent.append (8 * 1024 * 1024) (8 * 1024 * 1024),
              UpEvent.finish (16 * 1024 * 1024) (4 * 1024 * 1024)]) :=
  ⟨by decide, chunk_upload_offsets_contiguous (20 * 1024 * 1024) (by decide)⟩

/-- C10: when the readable bytes equal the declared size, the `_chunk_upload`
loop terminates (fuel equal to the byte count suffices, each iteration
strictly advancing the file position); when the file holds fewer readable
bytes than the declared size, the loop never terminates — no amount of fuel
completes it, since reads at end of file return no bytes and the position
stays below the declared size forever. -/
theorem chunk_upload_termination (n avail : Nat) :
    (avail = n → (chunk_upload n avail n).isSome = true)
    ∧ (avail < n → ∀ fuel, chunk_upload n avail fuel = none) := by
  constructor
  · rintro rfl
    by_cases h : MAX_UPLOAD_CHUNK_SIZE < avail
    · have hmin : min MAX_UPLOAD_CHUNK_SIZE avail = MAX_UPLOAD_CHUNK_SIZE :=
        Nat.min_eq_left (Nat.le_of_lt h)
      obtain ⟨t, heq, _⟩ :=
        chunkLoop_props avail avail MAX_UPLOAD_CHUNK_SIZE h (by omega)
      simp [chunk_upload, hmin, heq]
    · have hmin : min MAX_UPLOAD_CHUNK_SIZE avail = avail :=
        Nat.min_eq_right (by omega)
      have hdone := chunkLoop_done avail avail avail avail avail (by omega)
      simp [chunk_upload, hmin, hdone]
  · intro h fuel
    have h0 : min MAX_UPLOAD_CHUNK_SIZE avail ≤ avail :=
      Nat.min_le_right MAX_UPLOAD_CHUNK_SIZE avail
    simp [chunk_upload, chunkLoop_short_none n avail h fuel _ _ h0]

/-- C10 witness: termination at a 3-byte file whose declared size matches,
and non-termination at a declared size 3 with only 2 readable bytes. -/
theorem chunk_upload_termination_witness :
    (chunk_upload 3 3 3).isSome = true ∧ chunk_upload 3 2 7 = none :=
  ⟨(chunk_upload_termination 3 3).1 rfl,
   (chunk_upload_termination 3 2).2 (by decide) 7⟩

/-- C2: evaluation of `_auto_retry` at the decisive inputs.  Retries happen
exactly on transient network errors: an ApiError on the first attempt
propagates immediately with no retry, and up to nine consecutive network
errors are retried through to the wrapped call's success.  But at the tenth
consecutive network failure the code does not re-raise the network error:
line 139 applies `.format` to the `None` returned by `print`, so an
AttributeError escapes and the `raise` of line 142 is dead — the propagated
exception is not the transient network error the source intends. -/
theorem auto_retry_behaviour :
    auto_retry (fun _ => CallRes.netErr) = RetryOut.raisesAttr
    ∧ auto_retry (fun _ => CallRes.netErr) ≠ RetryOut.raisesNet
    ∧ auto_retry (fun _ => CallRes.apiErr) = RetryOut.raisesApi
    ∧ auto_retry (fun i => if i = 0 then CallRes.apiErr else CallRes.ok 7) =
        RetryOut.raisesApi
    ∧ auto_retry (fun i => if i < 9 then CallRes.netErr else CallRes.ok 7) =
        RetryOut.ok 7
    ∧ auto_retry (fun i => if i < 3 then CallRes.netErr else CallRes.apiErr) =
        RetryOut.raisesApi := by
  refine ⟨by decide, by decide, by decide, by decide, by decide, by decide⟩

/-- Dedup condition unfolded to the sizes the claim talks about. -/
lemma dedupSkip_iff (env : UploadEnv) :
    dedupSkip env = true ↔
      (get_server_file_size (env.lookup env.dest_full_path) = env.file_size ∨
        ∃ p, env.meta_svr_path = some p ∧
          get_server_file_size (env.lookup p) = env.file_size) := by
  unfold dedupSkip
  cases hm : env.meta_svr_path with
  | none => simp [hm]
  | some p => simp [hm]

/-- Every non-skip branch of `upload` puts the upload call at the head of the
trace. -/
lemma upload_not_skip_head (env : UploadEnv) (h : dedupSkip env = false) :
    UEvent.uploadCall ∈ (upload env).1 := by
  unfold upload
  rw [h]
  simp only [Bool.false_eq_true, if_false]
  cases env.transfer with
  | apiError => simp
  | osError => simp
  | otherError => simp
  | ok p =>
    by_cases h1 : p = ""
    · simp [h1]
    · by_cases h2 : get_server_file_size env.verify = env.file_size
      · by_cases h3 : env.is_delete <;> simp [h1, h2, h3]
      · simp [h1, h2]

/-- Skip branch of `upload`. -/
lemma upload_skip_eq (env : UploadEnv) (h : dedupSkip env = true) :
    upload env =
      (if env.is_delete then [UEvent.skipLog, UEvent.deleteLocal]
       else [UEvent.skipLog], UResult.ret) := by
  unfold upload
  rw [h]
  simp only [if_true]
  by_cases hd : env.is_delete <;> simp [hd]

/-- C3: the upload is skipped — the skip diagnostic is printed and no upload
call is issued — if and only if the remote size at the direct destination
path, or at the metadata-derived canonical path when metadata extraction
succeeded, equals the local byte size exactly; an object-not-found lookup
(like every ApiError) reports size 0; and when metadata extraction failed
(`meta_svr_path = none`), the skip decision depends on the direct path
alone. -/
theorem upload_skip_iff_size_match (env : UploadEnv) :
    ((UEvent.skipLog ∈ (upload env).1 ∧ UEvent.uploadCall ∉ (upload env).1) ↔
      (get_server_file_size (env.lookup env.dest_full_path) = env.file_size ∨
        ∃ p, env.meta_svr_path = some p ∧
          get_server_file_size (env.lookup p) = env.file_size))
    ∧ get_server_file_size (MetaResult.err ApiErrKind.notFound) = 0
    ∧ (env.meta_svr_path = none →
        ((UEvent.skipLog ∈ (upload env).1 ∧ UEvent.uploadCall ∉ (upload env).1) ↔
          get_server_file_size (env.lookup env.dest_full_path) = env.file_size)) := by
  have hmain : (UEvent.skipLog ∈ (upload env).1 ∧
      UEvent.uploadCall ∉ (upload env).1) ↔ dedupSkip env = true := by
    constructor
    · intro hin
      by_contra hns
      have hns2 : dedupSkip env = false := by
        cases h : dedupSkip env
        · rfl
        · exact absurd h hns
      exact hin.2 (upload_not_skip_head env hns2)
    · intro hs
      rw [upload_skip_eq env hs]
      split <;> simp
  refine ⟨hmain.trans (dedupSkip_iff env), rfl, ?_⟩
  intro hnone
  rw [hmain, dedupSkip_iff env, hnone]
  simp

/-- C3 witness: at a concrete environment with failed metadata extraction,
the skip decision is exactly the direct-path size comparison. -/
theorem upload_skip_iff_size_match_witness :
    (UEvent.skipLog ∈ (upload ⟨false, 5, "/Photos/d/a.jpg", none,
        fun _ => MetaResult.ok 5, TransferOutcome.ok "/photos/d/a.jpg",
        MetaResult.ok 5⟩).1 ∧
      UEvent.uploadCall ∉ (upload ⟨false, 5, "/Photos/d/a.jpg", none,
        fun _ => MetaResult.ok 5, TransferOutcome.ok "/photos/d/a.jpg",
        MetaResult.ok 5⟩).1) ↔
    get_server_file_size ((fun _ => MetaResult.ok 5) "/Photos/d/a.jpg") = 5 :=
  (upload_skip_iff_size_match ⟨false, 5, "/Photos/d/a.jpg", none,
      fun _ => MetaResult.ok 5, TransferOutcome.ok "/photos/d/a.jpg",
      MetaResult.ok 5⟩).2.2 rfl

/-- Environment of a dedup-skip execution with the delete flag set: the
remote object at the direct path already has the local size. -/
def envC4 : UploadEnv :=
  ⟨true, 100, "/Photos/d/a.jpg", none, fun _ => MetaResult.ok 100,
    TransferOutcome.ok "/photos/d/a.jpg", MetaResult.ok 100⟩

/-- C4 counterexample: with the delete flag set, the skip branch of `upload`
deletes the local file although no post-upload size verification ever ran —
the trace is the skip log followed directly by the local delete, with no
passed verification before it.  The claim as stated (deletion never before
the post-upload verification has passed, over every execution with the flag
set) is therefore false on the code. -/
theorem upload_delete_without_verify_ce :
    envC4.is_delete = true
    ∧ (upload envC4).1 = [UEvent.skipLog, UEvent.deleteLocal]
    ∧ UEvent.deleteLocal ∈ (upload envC4).1
    ∧ UEvent.verified true ∉ (upload envC4).1
    ∧ deletesAfterVerify (upload envC4).1 false = false := by decide

/-- C4 amended: in every execution of `upload` that issues an upload call
(the dedup check did not skip), deletion never occurs before the post-upload
size verification has passed; and whenever the verification fails, `upload`
raises the mismatch exception and the local file is not deleted.  A skip
execution deletes on the strength of the dedup size match alone, with no
post-upload verification. -/
theorem upload_delete_after_verify (env : UploadEnv) :
    (UEvent.uploadCall ∈ (upload env).1 →
      deletesAfterVerify (upload env).1 false = true)
    ∧ (UEvent.verified false ∈ (upload env).1 →
      (upload env).2 = UResult.raisesMismatch ∧
        UEvent.deleteLocal ∉ (upload env).1) := by
  by_cases hs : dedupSkip env = true
  · rw [upload_skip_eq env hs]
    by_cases hd : env.is_delete <;> simp [hd]
  · have hs2 : dedupSkip env = false := by
      cases h : dedupSkip env
      · rfl
      · exact absurd h hs
    unfold upload
    rw [hs2]
    simp only [Bool.false_eq_true, if_false]
    cases env.transfer with
    | apiError => simp [deletesAfterVerify]
    | osError => simp [deletesAfterVerify]
    | otherError => simp [deletesAfterVerify]
    | ok p =>
      by_cases h1 : p = ""
      · simp [h1, deletesAfterVerify]
      · by_cases h2 : get_server_file_size env.verify = env.file_size
        · by_cases h3 : env.is_delete <;> simp [h1, h2, h3, deletesAfterVerify]
        · simp [h1, h2, deletesAfterVerify]

/-- Environment of a failing post-upload verification with the delete flag
set: no remote object beforehand, transfer succeeds, but the re-queried size
disagrees. -/
def envC4w : UploadEnv :=
  ⟨true, 5, "/Photos/d/a.jpg", none, fun _ => MetaResult.err ApiErrKind.notFound,
    TransferOutcome.ok "/photos/d/a.jpg", MetaResult.ok 3⟩

/-- C4 witness: the amended theorem at a concrete failing verification. -/
theorem upload_delete_after_verify_witness :
    deletesAfterVerify (upload envC4w).1 false = true
    ∧ (upload envC4w).2 = UResult.raisesMismatch
    ∧ UEvent.deleteLocal ∉ (upload envC4w).1 :=
  ⟨(upload_delete_after_verify envC4w).1 (by decide),
   ((upload_delete_after_verify envC4w).2 (by decide)).1,
   ((upload_delete_after_verify envC4w).2 (by decide)).2⟩

/-- Environment of a failing post-upload verification (no delete flag). -/
def envC5 : UploadEnv :=
  ⟨false, 5, "/Photos/d/a.jpg", none, fun _ => MetaResult.err ApiErrKind.notFound,
    TransferOutcome.ok "/photos/d/b.jpg", MetaResult.ok 3⟩

/-- C5 counterexample: the post-upload size-verification mismatch does
propagate out of `upload` — line 240 raises an Exception that no handler in
`upload` catches — so it is not true that only the local I/O failure case
escapes; this failing task does not complete normally. -/
theorem upload_mismatch_raises_ce :
    (upload envC5).2 = UResult.raisesMismatch
    ∧ (upload envC5).2 ≠ UResult.ret
    ∧ (upload envC5).2 ≠ UResult.raisesOS := by decide

/-- C5 amended: among per-file failures, exactly the remote API rejection of
the transfer call is isolated — `upload` logs it and returns normally, so
sibling tasks see no exception; the local I/O failure, the post-upload
size-verification mismatch, and any other exception class escaping the
transfer call (such as the AttributeError produced at the retry ceiling)
all propagate out of `upload`. -/
theorem upload_isolation_amended (env : UploadEnv) (h : dedupSkip env = false) :
    (env.transfer = TransferOutcome.apiError → (upload env).2 = UResult.ret)
    ∧ (env.transfer = TransferOutcome.osError →
        (upload env).2 = UResult.raisesOS)
    ∧ (env.transfer = TransferOutcome.otherError →
        (upload env).2 = UResult.raisesOther)
    ∧ (∀ p, env.transfer = TransferOutcome.ok p → p ≠ "" →
        get_server_file_size env.verify ≠ env.file_size →
        (upload env).2 = UResult.raisesMismatch) := by
  refine ⟨?_, ?_, ?_, ?_⟩
  · intro htr
    unfold upload
    rw [h, htr]
    simp
  · intro htr
    unfold upload
    rw [h, htr]
    simp
  · intro htr
    unfold upload
    rw [h, htr]
    simp
  · intro p htr hne hmis
    unfold upload
    rw [h, htr]
    simp [hne, hmis]

/-- C5 witness: the amended isolation theorem at the concrete mismatching
environment. -/
theorem upload_isolation_amended_witness :
    (upload envC5).2 = UResult.raisesMismatch :=
  (upload_isolation_amended envC5 (by decide)).2.2.2 "/photos/d/b.jpg" rfl
    (by decide) (by decide)

/-- Environment in which the transfer call raises a dropbox ApiError. -/
def envC6 : UploadEnv :=
  ⟨false, 5, "/Photos/d/a.jpg", none, fun _ => MetaResult.err ApiErrKind.notFound,
    TransferOutcome.apiError, MetaResult.ok 5⟩

/-- C6: during a file's upload, a remote-API-level rejection (dropbox
ApiError, e.g. quota or permission) is caught, logged, and ends just this
task — `upload` returns normally with no verification and no delete — while
a local I/O failure (OSError) reading the source file is re-raised and
escapes `upload`, which is what terminates the whole run. -/
theorem upload_api_error_isolated (env : UploadEnv) (h : dedupSkip env = false) :
    (env.transfer = TransferOutcome.apiError →
      upload env = ([UEvent.uploadCall, UEvent.apiErrorLog], UResult.ret))
    ∧ (env.transfer = TransferOutcome.osError →
      upload env = ([UEvent.uploadCall], UResult.raisesOS)) := by
  constructor
  · intro htr
    unfold upload
    rw [h, htr]
    simp
  · intro htr
    unfold upload
    rw [h, htr]
    simp

/-- C6 witness: the isolation theorem at a concrete ApiError environment. -/
theorem upload_api_error_isolated_witness :
    upload envC6 = ([UEvent.uploadCall, UEvent.apiErrorLog], UResult.ret) :=
  (upload_api_error_isolated envC6 (by decide)).1 rfl

/-- Environment of a zero-byte local file facing a nonzero remote object at
the direct path, with no metadata-derived path. -/
def envC8 : UploadEnv :=
  ⟨true, 0, "/Photos/d/a.jpg", none, fun _ => MetaResult.ok 1,
    TransferOutcome.ok "/photos/d/a.jpg", MetaResult.ok 1⟩

/-- C8 counterexample: a zero-byte local file does not always take the skip
path — when a remote object of nonzero size occupies the direct path (and no
metadata path exists), both size comparisons fail and an upload call is
issued. -/
theorem upload_zero_size_not_always_skip_ce :
    envC8.file_size = 0
    ∧ UEvent.uploadCall ∈ (upload envC8).1
    ∧ UEvent.skipLog ∉ (upload envC8).1 := by decide

/-- C8 amended: a zero-byte local file takes the skip path, with no upload
call, whenever the direct-path lookup reports size 0 — in particular
whenever no remote object exists there, since an object-not-found ApiError
reports size 0 — and with the delete flag set the zero-byte local file is
then removed although no remote copy need exist. -/
theorem upload_zero_size_skip (env : UploadEnv) (h0 : env.file_size = 0)
    (hd : get_server_file_size (env.lookup env.dest_full_path) = 0) :
    UEvent.skipLog ∈ (upload env).1
    ∧ UEvent.uploadCall ∉ (upload env).1
    ∧ (env.is_delete = true → UEvent.deleteLocal ∈ (upload env).1) := by
  have hs : dedupSkip env = true := by
    rw [dedupSkip_iff]
    left
    rw [hd, h0]
  rw [upload_skip_eq env hs]
  by_cases hdel : env.is_delete <;> simp [hdel]

/-- Environment of a zero-byte local file with no remote object at the
direct path and the delete flag set. -/
def envC8w : UploadEnv :=
  ⟨true, 0, "/Photos/d/a.jpg", none, fun _ => MetaResult.err ApiErrKind.notFound,
    TransferOutcome.ok "/photos/d/a.jpg", MetaResult.err ApiErrKind.notFound⟩

/-- C8 witness: the amended theorem at a zero-byte file whose direct path
has no remote object; the file is skipped and deleted. -/
theorem upload_zero_size_skip_witness :
    UEvent.skipLog ∈ (upload envC8w).1
    ∧ UEvent.uploadCall ∉ (upload envC8w).1
    ∧ UEvent.deleteLocal ∈ (upload envC8w).1 :=
  ⟨(upload_zero_size_skip envC8w rfl rfl).1,
   (upload_zero_size_skip envC8w rfl rfl).2.1,
   (upload_zero_size_skip envC8w rfl rfl).2.2 rfl⟩

/-- Environment of a zero-byte local file whose direct-path lookup is
rejected with a permission ApiError. -/
def envC9 : UploadEnv :=
  ⟨false, 0, "/Photos/d/a.jpg", none,
    fun _ => MetaResult.err ApiErrKind.permission,
    TransferOutcome.ok "/photos/d/a.jpg", MetaResult.ok 0⟩

/-- C9 counterexample: a metadata-lookup rejection does not always make
`upload` proceed to upload — for a zero-byte local file the rejection's
reported size 0 equals the local size, so the dedup check skips and no
upload call is issued. -/
theorem get_size_rejection_no_upload_ce :
    envC9.lookup envC9.dest_full_path = MetaResult.err ApiErrKind.permission
    ∧ UEvent.uploadCall ∉ (upload envC9).1
    ∧ UEvent.skipLog ∈ (upload envC9).1 := by decide

/-- C9 amended: `_get_server_file_size` returns 0 for every dropbox
ApiError, not only object-not-found; consequently, for a local file of
nonzero size, rejections of the candidate-path lookups make the dedup check
treat the remote object as absent and proceed to upload, and a rejection of
the post-upload lookup makes the size verification report 0 and fail; a
zero-byte file instead skips on such a rejection. -/
theorem get_server_file_size_api_error_zero :
    (∀ e, get_server_file_size (MetaResult.err e) = 0)
    ∧ (∀ env : UploadEnv, 0 < env.file_size →
        (∀ e, env.lookup env.dest_full_path = MetaResult.err e →
          env.meta_svr_path = none → UEvent.uploadCall ∈ (upload env).1)
        ∧ (∀ e e2 p, env.lookup env.dest_full_path = MetaResult.err e →
            env.meta_svr_path = some p → env.lookup p = MetaResult.err e2 →
            UEvent.uploadCall ∈ (upload env).1))
    ∧ (∀ (env : UploadEnv) (e : ApiErrKind) (p : String), 0 < env.file_size →
        dedupSkip env = false → env.transfer = TransferOutcome.ok p →
        p ≠ "" → env.verify = MetaResult.err e →
        get_server_file_size env.verify = 0 ∧
          (upload env).2 = UResult.raisesMismatch) := by
  refine ⟨fun e => rfl, ?_, ?_⟩
  · intro env hpos
    constructor
    · intro e hde hmn
      have hs : dedupSkip env = false := by
        rw [← Bool.not_eq_true, dedupSkip_iff]
        rintro (hh | ⟨p, hp, hq⟩)
        · rw [hde] at hh
          simp [get_server_file_size] at hh
          omega
        · rw [hmn] at hp
          cases hp
      exact upload_not_skip_head env hs
    · intro e e2 p hde hmp hq2
      have hs : dedupSkip env = false := by
        rw [← Bool.not_eq_true, dedupSkip_iff]
        rintro (hh | ⟨q, hq, hqs⟩)
        · rw [hde] at hh
          simp [get_server_file_size] at hh
          omega
        · rw [hmp] at hq
          cases hq
          rw [hq2] at hqs
          simp [get_server_file_size] at hqs
          omega
      exact upload_not_skip_head env hs
  · intro env e p hpos hs htr hne hv
    have hz : get_server_file_size env.verify = 0 := by rw [hv]; rfl
    refine ⟨hz, ?_⟩
    unfold upload
    rw [hs, htr]
    have hmis : get_server_file_size env.verify ≠ env.file_size := by omega
    simp [hne, hmis]

/-- Environment of a nonzero file whose lookups are all rejected. -/
def envC9w : UploadEnv :=
  ⟨false, 5, "/Photos/d/a.jpg", none,
    fun _ => MetaResult.err ApiErrKind.rateLimit,
    TransferOutcome.ok "/photos/d/a.jpg", MetaResult.err ApiErrKind.permission⟩

/-- C9 witness: the amended theorem at a concrete nonzero-size file with a
rate-limit rejection on the dedup lookup and a permission rejection on the
verification lookup. -/
theorem get_server_file_size_api_error_zero_witness :
    get_server_file_size (MetaResult.err ApiErrKind.rateLimit) = 0
    ∧ UEvent.uploadCall ∈ (upload envC9w).1
    ∧ get_server_file_size envC9w.verify = 0
    ∧ (upload envC9w).2 = UResult.raisesMismatch :=
  ⟨get_server_file_size_api_error_zero.1 ApiErrKind.rateLimit,
   ((get_server_file_size_api_error_zero.2.1 envC9w (by decide)).1
      ApiErrKind.rateLimit rfl rfl),
   (get_server_file_size_api_error_zero.2.2 envC9w ApiErrKind.permission
      "/photos/d/a.jpg" (by decide) (by decide) rfl (by decide) rfl).1,
   (get_server_file_size_api_error_zero.2.2 envC9w ApiErrKind.permission
      "/photos/d/a.jpg" (by decide) (by decide) rfl (by decide) rfl).2⟩

/-- Remote entry that already sits at its canonical date-based path. -/
def metaC7 : FileMeta :=
  ⟨true, some (MediaInfo.metadata (some ⟨2020, 5, 1⟩)), "a.jpg",
    "/Photos/2020/05/01/a.jpg"⟩

/-- C7 counterexample: `_fix_file` compares nothing — for an object whose
current path already equals its computed canonical date-based path, a move
is still issued (from that path to itself), so it is not true that a move is
issued only if the canonical path differs from the current path. -/
theorem fix_file_move_at_canonical_ce :
    canonicalDest ⟨2020, 5, 1⟩ metaC7.name = metaC7.path_lower
    ∧ FEvent.moveCall metaC7.path_lower metaC7.path_lower ∈ fix_file metaC7 true
    ∧ fix_file metaC7 true =
        [FEvent.moveCall "/Photos/2020/05/01/a.jpg"
          "/Photos/2020/05/01/a.jpg"] := by decide

/-- C7 amended: in the relocation pass a move to the canonical date-based
path is issued for every file entry carrying capture-time media metadata —
unconditionally, with no comparison against the current path; an object
already at its canonical path also has the move issued, and it stays in
place only because the failing move's ApiError is caught and logged. -/
theorem fix_file_move_unconditional (m : FileMeta) (ok : Bool) :
    ((∃ s t, FEvent.moveCall s t ∈ fix_file m ok) ↔
      (m.isFileMetadata = true ∧
        ∃ d, m.media_info = some (MediaInfo.metadata (some d))))
    ∧ (∀ d, m.isFileMetadata = true →
        m.media_info = some (MediaInfo.metadata (some d)) →
        FEvent.moveCall m.path_lower (canonicalDest d m.name) ∈ fix_file m ok
        ∧ (ok = false → FEvent.collisionLog m.path_lower ∈ fix_file m ok)) := by
  obtain ⟨f, mi, nm, pl⟩ := m
  cases f
  · simp [fix_file]
  · cases mi with
    | none => simp [fix_file]
    | some mi2 =>
      cases mi2 with
      | pending => simp [fix_file]
      | metadata td =>
        cases td with
        | none => simp [fix_file]
        | some d => cases ok <;> simp [fix_file]

/-- C7 witness: the amended theorem at the canonical-path entry with a
failing move — the move call and the collision log are both in the trace. -/
theorem fix_file_move_unconditional_witness :
    FEvent.moveCall metaC7.path_lower (canonicalDest ⟨2020, 5, 1⟩ metaC7.name) ∈
      fix_file metaC7 false
    ∧ FEvent.collisionLog metaC7.path_lower ∈ fix_file metaC7 false :=
  ⟨((fix_file_move_unconditional metaC7 false).2 ⟨2020, 5, 1⟩ rfl rfl).1,
   ((fix_file_move_unconditional metaC7 false).2 ⟨2020, 5, 1⟩ rfl rfl).2 rfl⟩

end RunBackup
